import Mathlib

/-!
Shallow embedding of the client-side contact synchronization and
batch-scheduling core of the integrated-lead-platform frontend.

The repository contains two near-duplicate implementations of the
contacts dashboard:

* `src/unnamed/part_001` (embedded below in namespace `App`), and
* `src/campaign-management-service/frontend/ui/src/components/CampaignManager.jsx`
  (embedded below in namespace `Manager`).

Where the two variants differ (the do-not-contact toggle, the
`contact_deleted` total update) both variants are embedded.  Pure
date arithmetic of the batch window planner
(`computeChunks` in `src/unnamed/part_003`) is embedded over day
numbers (days since the civil epoch 1970-01-01), with the civil
calendar conversion made explicit so that the concrete examples of the
specification can be stated on real dates.
-/

/-- A contact record as held in the contacts table.  The source records
carry more fields; `id` and `dnc` are the ones the synchronization
logic inspects, `name` stands for the remaining payload fields. -/
structure Contact where
  id : Nat
  dnc : Bool
  name : String
deriving DecidableEq, Repr

/-- Observable side effects of the do-not-contact toggle handlers, in
program order: the remote `PUT /contacts/{id}/dnc` call, the local
table flip (`setContacts`), the error report (`setMessage`/`errToast`),
and a busy rejection (present in the effect alphabet so that its
absence from every trace of the code can be stated; no code path below
ever emits it). -/
inductive Eff where
  | putDnc (id : Nat)
  | tableFlip (id : Nat)
  | reportError
  | busyReject
deriving DecidableEq, Repr

/-- The table update `prev.map (c => c.id === contactId ? { ...c, dnc: !c.dnc } : c)`
shared by both toggle variants. -/
def flipDnc (contacts : List Contact) (i : Nat) : List Contact :=
  contacts.map (fun c => if c.id = i then { c with dnc := !c.dnc } else c)

namespace App

/-- The `handleDncToggle` of `src/unnamed/part_001` (lines 830-848):
it first flips the flag in the table (`setContacts` before the
`await axios.put`), then issues the remote PUT; on failure it only
reports the error and the flipped table is left in place (optimistic,
never rolled back).  `remoteOk` is the outcome of the PUT; the result
is the table after the handler resolves together with its effect
trace in program order. -/
def handleDncToggle (contacts : List Contact) (i : Nat) (remoteOk : Bool) :
    List Contact × List Eff :=
  let flipped := flipDnc contacts i
  if remoteOk then (flipped, [Eff.tableFlip i, Eff.putDnc i])
  else (flipped, [Eff.tableFlip i, Eff.putDnc i, Eff.reportError])

/-- The `contact_deleted` branch of the websocket `onmessage` handler in
`src/unnamed/part_001` (lines 778-781): the record is filtered out and
`setTotalContacts((t) => t - 1)` decrements the counter with no floor. -/
def applyContactDeleted (contacts : List Contact) (total : Int) (i : Nat) :
    List Contact × Int :=
  (contacts.filter (fun c => decide (c.id ≠ i)), total - 1)

/-- The effects the `part_001` `handleDncToggle` performs synchronously
on invocation, before its first suspension point: it flips the flag in
the table and then issues the PUT request, consulting no
pending-mutation state. -/
def dncSubmitImmediateEffects (i : Nat) : List Eff :=
  [Eff.tableFlip i, Eff.putDnc i]

/-- Two `part_001` `handleDncToggle` invocations for the same id where
the second is submitted while the first PUT is still in flight: the
synchronous parts of both invocations run back to back. -/
def overlappingDncSubmits (i : Nat) : List Eff :=
  dncSubmitImmediateEffects i ++ dncSubmitImmediateEffects i

end App

namespace Manager

/-- The `handleDncToggle` of `CampaignManager.jsx` (lines 265-285):
the remote PUT is awaited first; only on success is the flag flipped
in the table; on failure only the error is reported and the table is
untouched. -/
def handleDncToggle (contacts : List Contact) (i : Nat) (remoteOk : Bool) :
    List Contact × List Eff :=
  if remoteOk then (flipDnc contacts i, [Eff.putDnc i, Eff.tableFlip i])
  else (contacts, [Eff.putDnc i, Eff.reportError])

/-- The effects `handleDncToggle` performs synchronously on invocation,
before its first suspension point (`await axios.put`): the PUT request
is issued unconditionally; no pending-mutation state is consulted. -/
def dncSubmitImmediateEffects (i : Nat) : List Eff :=
  [Eff.putDnc i]

/-- Two `handleDncToggle` invocations for the same id where the second
is submitted while the first PUT is still in flight: the synchronous
parts of both invocations run back to back. -/
def overlappingDncSubmits (i : Nat) : List Eff :=
  dncSubmitImmediateEffects i ++ dncSubmitImmediateEffects i

/-- The `contact_deleted` branch of `connectContactsWs` in
`CampaignManager.jsx` (lines 190-193): the record is filtered out and
`setTotalContacts((t) => Math.max(0, t - 1))` decrements the counter
floored at 0. -/
def applyContactDeleted (contacts : List Contact) (total : Int) (i : Nat) :
    List Contact × Int :=
  (contacts.filter (fun c => decide (c.id ≠ i)), max 0 (total - 1))

/-- The payload of `GET /contacts?page=..&per_page=..` as consumed by
`fetchContacts`: `data.contacts` may be missing (`data.contacts || []`),
`data.total` is a number. -/
structure FetchPayload where
  contacts : Option (List Contact)
  total : Int
deriving DecidableEq, Repr

/-- The component state touched by `fetchContacts`. -/
structure ManagerState where
  contacts : List Contact
  totalContacts : Int
  message : String
  isError : Bool
  loading : Bool
deriving DecidableEq, Repr

/-- Resolution of `fetchContacts` in `CampaignManager.jsx`
(lines 133-154) once the GET settles.  On success the page contents
replace the table and `total || list.length || 0` becomes the counter;
on failure only `message`, `isError` and `loading` are written. -/
def fetchContactsResolve (st : ManagerState) (result : Except String FetchPayload) :
    ManagerState :=
  match result with
  | Except.ok d =>
      let list := d.contacts.getD []
      { st with
          contacts := list
          totalContacts := if d.total ≠ 0 then d.total else (list.length : Int)
          loading := false }
  | Except.error msg =>
      { st with
          message := "Failed to fetch contacts: " ++ msg
          isError := true
          loading := false }

/-- A full `fetchContacts` call: `setLoading(true)` up front, then the
resolution once the GET settles with `result`. -/
def fetchContacts (st : ManagerState) (result : Except String FetchPayload) :
    ManagerState :=
  fetchContactsResolve { st with loading := true } result

end Manager

/-!
Batch window planner.  `computeChunks` in `src/unnamed/part_003`
(lines 503-518) manipulates date-only values: `new Date(s)` parses the
ISO date, `setDate(getDate() + k)` advances by `k` days, comparison
and `toISOString().slice(0, 10)` render back a date.  Dates are
embedded as day numbers (days since 1970-01-01); `daysFromCivil` and
`civilFromDays` are the standard civil calendar conversions so the
concrete examples can be stated on year-month-day triples. -/

/-- Day number of the civil date `y-m-d` relative to 1970-01-01. -/
def daysFromCivil (y m d : Int) : Int :=
  let y2 := if m ≤ 2 then y - 1 else y
  let era := Int.fdiv y2 400
  let yoe := y2 - era * 400
  let mp := Int.fmod (m + 9) 12
  let doy := Int.fdiv (153 * mp + 2) 5 + d - 1
  let doe := yoe * 365 + Int.fdiv yoe 4 - Int.fdiv yoe 100 + doy
  era * 146097 + doe - 719468

/-- Civil date `(y, m, d)` of a day number relative to 1970-01-01. -/
def civilFromDays (z : Int) : Int × Int × Int :=
  let z2 := z + 719468
  let era := Int.fdiv z2 146097
  let doe := z2 - era * 146097
  let yoe := Int.fdiv (doe - Int.fdiv doe 1460 + Int.fdiv doe 36524 - Int.fdiv doe 146096) 365
  let y := yoe + era * 400
  let doy := doe - (365 * yoe + Int.fdiv yoe 4 - Int.fdiv yoe 100)
  let mp := Int.fdiv (5 * doy + 2) 153
  let d := doy - Int.fdiv (153 * mp + 2) 5 + 1
  let m := mp + (if mp < 10 then 3 else (-9 : Int))
  (if m ≤ 2 then y + 1 else y, m, d)

/-- Loop body of `computeChunks`: while `cur <= end` emit
`(cur, min (cur + (days - 1)) end)` and advance `cur` by `days`.
The loop in the source terminates for every `days ≥ 1` (the only
values it is invoked with, see the clamps below) because `cur`
strictly advances; the fuel argument bounds the iteration count by
the number of days in the range, which suffices for `days ≥ 1`. -/
def chunksGo : Nat → Int → Int → Int → List (Int × Int)
  | 0, _, _, _ => []
  | fuel + 1, cur, e, days =>
      if cur ≤ e then
        (cur, min (cur + (days - 1)) e) :: chunksGo fuel (cur + days) e days
      else []

/-- `computeChunks(s, e, days)` of `src/unnamed/part_003`
(lines 503-518), over day numbers. -/
def computeChunks (s e days : Int) : List (Int × Int) :=
  chunksGo (e + 1 - s).toNat s e days

/-- Exact coverage of the inclusive range `[s, e]` by a chunk list:
the list is empty exactly when the range is, and otherwise the first
chunk starts at `s`, is non-empty and stays inside the range, and the
remaining chunks cover exactly `[chunkEnd + 1, e]`.  This packages
"inclusive, ascending, non-overlapping, no gaps, union is exactly
`[s, e]`" as one decidable predicate. -/
def isChunkCover : Int → Int → List (Int × Int) → Bool
  | s, e, [] => decide (e < s)
  | s, e, c :: rest =>
      decide (c.1 = s) && decide (c.1 ≤ c.2) && decide (c.2 ≤ e) &&
        isChunkCover (c.2 + 1) e rest

namespace App

/-- The inline chunk loop of `handlePullApi` in `src/unnamed/part_001`
(lines 579-591): identical to `computeChunks` with the window length
hard-coded to 7 days (`+ 6` for the chunk end, `+ 7` for the cursor
advance). -/
def pullChunksGo : Nat → Int → Int → List (Int × Int)
  | 0, _, _ => []
  | fuel + 1, cur, e =>
      if cur ≤ e then
        (cur, min (cur + 6) e) :: pullChunksGo fuel (cur + 7) e
      else []

/-- The `dateChunks` array built by `handlePullApi` in
`src/unnamed/part_001` before `POST /indiamart/pull/batch`. -/
def pullDateChunks (s e : Int) : List (Int × Int) :=
  pullChunksGo (e + 1 - s).toNat s e

end App

/-- JavaScript `Number(v) || dflt`: a non-numeric value (`Number`
yields `NaN`, modeled as `none`) and the number 0 are falsy and
replaced by the default. -/
def jsNumberOr (v : Option Int) (dflt : Int) : Int :=
  match v with
  | none => dflt
  | some 0 => dflt
  | some n => n

namespace Part003

/-- The days-per-chunk clamp shared by `handlePullApi` (line 646),
`previewChunks` (line 540) and `exportChunks` (line 525) of
`src/unnamed/part_003`: `Math.max(1, Math.min(30, Number(chunkDays) || 7))`. -/
def clampDaysAction (chunkDays : Option Int) : Int :=
  max 1 (min 30 (jsNumberOr chunkDays 7))

/-- The clamp in the `Days per chunk` text field `onChange` handler of
`src/unnamed/part_003` (lines 875-878):
`Math.max(1, Math.min(30, Number(e.target.value) || 1))`. -/
def clampDaysField (v : Option Int) : Int :=
  max 1 (min 30 (jsNumberOr v 1))

/-- `handlePullApi` of `src/unnamed/part_003` (lines 639-650) invokes
`computeChunks(startDate, endDate, days)` with the clamped days value. -/
def handlePullApiChunks (startDate endDate : Int) (chunkDays : Option Int) :
    List (Int × Int) :=
  computeChunks startDate endDate (clampDaysAction chunkDays)

/-- `previewChunks` of `src/unnamed/part_003` (lines 535-544) invokes
`computeChunks` with the same clamped days value. -/
def previewChunksRows (startDate endDate : Int) (chunkDays : Option Int) :
    List (Int × Int) :=
  computeChunks startDate endDate (clampDaysAction chunkDays)

/-- `exportChunks` of `src/unnamed/part_003` (lines 520-533) invokes
`computeChunks` with the same clamped days value. -/
def exportChunksRows (startDate endDate : Int) (chunkDays : Option Int) :
    List (Int × Int) :=
  computeChunks startDate endDate (clampDaysAction chunkDays)

end Part003

/-!
Response cache.  `src/unnamed/part_001` (lines 94-120) installs an
axios request interceptor that, for a GET whose URL has a cache entry
younger than 60000 ms, short-circuits with the stored payload (no
network call, cache untouched), and a response interceptor that stores
the payload of every settled GET under its URL with the current
timestamp (`Map.set`, overwriting).  Non-GET requests pass both
interceptors untouched.  The payload type is abstract. -/

/-- One entry of the response cache: `{ data, timestamp }`. -/
structure CacheEntry (α : Type) where
  data : α
  timestamp : Int
deriving DecidableEq, Repr

/-- The cache is a `Map` from URL to entry; embedded as an association
list whose first binding for a URL is the current one. -/
def cacheLookup {α : Type} (cache : List (String × CacheEntry α)) (url : String) :
    Option (CacheEntry α) :=
  (cache.find? (fun p => decide (p.1 = url))).map (fun p => p.2)

/-- `Map.set`: overwrite the binding for `url`. -/
def cacheSet {α : Type} (cache : List (String × CacheEntry α)) (url : String)
    (e : CacheEntry α) : List (String × CacheEntry α) :=
  (url, e) :: cache.filter (fun p => decide (p.1 ≠ url))

/-- Result of one request through the interceptor pair: the payload
delivered to the caller, the cache afterwards, and whether a real
network call happened. -/
structure RequestOutcome (α : Type) where
  payload : α
  cache : List (String × CacheEntry α)
  networkCalled : Bool
deriving DecidableEq, Repr

/-- One request through the interceptors of `src/unnamed/part_001`
(lines 94-120).  `now` is `Date.now()` at request time, `net` the
payload the remote would answer with.  A GET with a fresh entry
(`now - timestamp < 60000`) is served from the cache with no network
call; any other GET performs the call and stores the result; a
non-GET always performs the call and never touches the cache. -/
def performRequest {α : Type} (cache : List (String × CacheEntry α))
    (method url : String) (now : Int) (net : α) : RequestOutcome α :=
  if method = "get" then
    match cacheLookup cache url with
    | some e =>
        if now - e.timestamp < 60000 then
          ⟨e.data, cache, false⟩
        else
          ⟨net, cacheSet cache url ⟨net, now⟩, true⟩
    | none => ⟨net, cacheSet cache url ⟨net, now⟩, true⟩
  else ⟨net, cache, true⟩

/-!
Connection supervisor.  The websocket `onclose` handler of
`src/unnamed/part_001` (lines 787-795) and `CampaignManager.jsx`
(lines 200-208): a counter `retry` starts at 0 with `maxRetries = 5`;
on close, if `retry < maxRetries` it increments `retry` and schedules
`setTimeout(connect, 500 * retry)`; otherwise it falls back to a
direct `fetchContacts()` and schedules nothing. -/

/-- Reaction to one close event of the websocket. -/
inductive CloseAction where
  | scheduleReconnect (retry : Nat) (delayMs : Nat)
  | fallbackFetch
deriving DecidableEq, Repr

/-- `maxRetries` of the `onclose` handlers. -/
def maxRetries : Nat := 5

/-- The `onclose` handler given the current `retry` counter: below
`maxRetries` it increments the counter and schedules a reconnect after
`500 * retry` ms; at `maxRetries` it performs the snapshot-fetch
fallback and schedules no timer. -/
def onCloseStep (retry : Nat) : CloseAction :=
  if retry < maxRetries then
    CloseAction.scheduleReconnect (retry + 1) (500 * (retry + 1))
  else CloseAction.fallbackFetch

/-- The reconnect delays scheduled over a run of `k` consecutive close
events starting from counter `retry`.  Once the fallback fires, the
channel is never reopened, so no further close events or timers occur. -/
def reconnectDelays : Nat → Nat → List Nat
  | 0, _ => []
  | k + 1, retry =>
      match onCloseStep retry with
      | CloseAction.scheduleReconnect r d => d :: reconnectDelays k r
      | CloseAction.fallbackFetch => []

/-!  Helper lemmas for the batch window planner. -/

/-- The fuel argument of `chunksGo` is irrelevant once it is at least
the number of days in the remaining range, provided `days ≥ 1`. -/
theorem chunksGo_congr (days : Int) (hd : 1 ≤ days) :
    ∀ (f g : Nat) (cur e : Int), (e + 1 - cur).toNat ≤ f → (e + 1 - cur).toNat ≤ g →
      chunksGo f cur e days = chunksGo g cur e days := by
  intro f
  induction f with
  | zero =>
    intro g cur e hf hg
    have hce : ¬ cur ≤ e := by omega
    cases g with
    | zero => rfl
    | succ g => simp [chunksGo, hce]
  | succ f ih =>
    intro g cur e hf hg
    cases g with
    | zero =>
      have hce : ¬ cur ≤ e := by omega
      simp [chunksGo, hce]
    | succ g =>
      by_cases hce : cur ≤ e
      · simp only [chunksGo, if_pos hce]
        congr 1
        exact ih g (cur + days) e (by omega) (by omega)
      · simp [chunksGo, hce]

/-- For `days ≥ 1`, `computeChunks` satisfies the recurrence of the
source loop: emit `(s, min (s + (days - 1)) e)` while `s ≤ e` and
advance the cursor by `days`. -/
theorem computeChunks_eq (s e days : Int) (hd : 1 ≤ days) :
    computeChunks s e days =
      if s ≤ e then (s, min (s + (days - 1)) e) :: computeChunks (s + days) e days
      else [] := by
  by_cases h : s ≤ e
  · rw [if_pos h]
    unfold computeChunks
    have hk : (e + 1 - s).toNat = (e - s).toNat + 1 := by omega
    rw [hk]
    simp only [chunksGo, if_pos h]
    congr 1
    exact chunksGo_congr days hd (e - s).toNat (e + 1 - (s + days)).toNat (s + days) e
      (by omega) le_rfl
  · rw [if_neg h]
    unfold computeChunks
    have h0 : (e + 1 - s).toNat = 0 := by omega
    rw [h0]
    rfl

/-- For `days ≥ 1` the chunk list of `computeChunks` exactly covers
`[s, e]` in the sense of `isChunkCover`. -/
theorem isChunkCover_computeChunks (days : Int) (hd : 1 ≤ days) :
    ∀ (n : Nat) (s e : Int), (e + 1 - s).toNat = n →
      isChunkCover s e (computeChunks s e days) = true := by
  intro n
  induction n using Nat.strong_induction_on with
  | _ n ih =>
    intro s e hn
    rw [computeChunks_eq s e days hd]
    by_cases h : s ≤ e
    · rw [if_pos h]
      simp only [isChunkCover, Bool.and_eq_true, decide_eq_true_eq]
      refine ⟨⟨⟨by trivial, le_min (by omega) h⟩, min_le_right _ _⟩, ?_⟩
      rcases le_or_lt (s + days) e with hB | hB
      · have hmin : min (s + (days - 1)) e = s + (days - 1) := min_eq_left (by omega)
        rw [hmin]
        have hadv : s + (days - 1) + 1 = s + days := by ring
        rw [hadv]
        exact ih (e + 1 - (s + days)).toNat (by omega) (s + days) e rfl
      · have hmin : min (s + (days - 1)) e = e := min_eq_right (by omega)
        rw [hmin]
        rw [computeChunks_eq (s + days) e days hd, if_neg (by omega)]
        simp [isChunkCover]
    · rw [if_neg h]
      simp only [isChunkCover, decide_eq_true_eq]
      omega

/-- For `days ≥ 1` every chunk of `computeChunks` spans at most `days`
days. -/
theorem computeChunks_width (days : Int) (hd : 1 ≤ days) :
    ∀ (n : Nat) (s e : Int), (e + 1 - s).toNat = n →
      ∀ c ∈ computeChunks s e days, c.2 + 1 - c.1 ≤ days := by
  intro n
  induction n using Nat.strong_induction_on with
  | _ n ih =>
    intro s e hn c hc
    rw [computeChunks_eq s e days hd] at hc
    by_cases h : s ≤ e
    · rw [if_pos h] at hc
      rcases List.mem_cons.mp hc with rfl | hc
      · have := min_le_left (s + (days - 1)) e
        simp only [Prod.fst, Prod.snd]
        omega
      · exact ih (e + 1 - (s + days)).toNat (by omega) (s + days) e rfl c hc
    · rw [if_neg h] at hc
      simp at hc

/-- A chunk list exactly covering `[s, e]` contains a chunk containing
`x` exactly for the `x` in `[s, e]`. -/
theorem isChunkCover_mem_iff :
    ∀ (cs : List (Int × Int)) (s e : Int), isChunkCover s e cs = true →
      ∀ x : Int, (s ≤ x ∧ x ≤ e) ↔ ∃ c ∈ cs, c.1 ≤ x ∧ x ≤ c.2 := by
  intro cs
  induction cs with
  | nil =>
    intro s e hcov x
    simp only [isChunkCover, decide_eq_true_eq] at hcov
    simp only [List.not_mem_nil, false_and, exists_false, iff_false, not_and, not_le]
    omega
  | cons a rest ih =>
    intro s e hcov x
    simp only [isChunkCover, Bool.and_eq_true, decide_eq_true_eq] at hcov
    obtain ⟨⟨⟨ha1, hab⟩, hae⟩, hrest⟩ := hcov
    have hiff := ih (a.2 + 1) e hrest x
    constructor
    · rintro ⟨hsx, hxe⟩
      by_cases hxb : x ≤ a.2
      · exact ⟨a, List.mem_cons_self a rest, by omega, hxb⟩
      · obtain ⟨c, hc, h1, h2⟩ := hiff.mp ⟨by omega, hxe⟩
        exact ⟨c, List.mem_cons_of_mem a hc, h1, h2⟩
    · rintro ⟨c, hc, hc1, hc2⟩
      rcases List.mem_cons.mp hc with rfl | hc
      · omega
      · have := hiff.mpr ⟨c, hc, hc1, hc2⟩
        omega

/-- The inline 7-day loop of `handlePullApi` in `src/unnamed/part_001`
computes the same chunks as `computeChunks` with `days = 7`. -/
theorem pullChunksGo_eq_chunksGo :
    ∀ (f : Nat) (cur e : Int), App.pullChunksGo f cur e = chunksGo f cur e 7 := by
  intro f
  induction f with
  | zero => intro cur e; rfl
  | succ f ih =>
    intro cur e
    by_cases h : cur ≤ e
    · simp only [App.pullChunksGo, chunksGo, if_pos h, ih]
      norm_num
    · simp [App.pullChunksGo, chunksGo, h]

/-!  Claim theorems. -/

/-- C1 (counterexample): the do-not-contact mutation is not
confirm-before-apply in the `part_001` implementation.  On a table
holding contact 1 with `dnc = false`, a toggle whose remote PUT fails
leaves the flag flipped (the table differs from its pre-submit state),
and the effect trace shows the table flip happening before the PUT is
issued. -/
theorem dnc_toggle_optimistic_flip_on_failure :
    (App.handleDncToggle [Contact.mk 1 false "a"] 1 false).1 = [Contact.mk 1 true "a"]
    ∧ [Contact.mk 1 true "a"] ≠ [Contact.mk 1 false "a"]
    ∧ (App.handleDncToggle [Contact.mk 1 false "a"] 1 false).2.head?
        = some (Eff.tableFlip 1) := by
  decide

/-- C1 (amended): only the `CampaignManager.jsx` implementation of the
do-not-contact toggle is confirm-before-apply — it issues the PUT
first and flips the flag only after success, leaving the table exactly
as it was when the call fails; the `part_001` implementation is
optimistic: it flips the flag before the PUT and leaves the flipped
flag in place when the call fails. -/
theorem dnc_toggle_confirm_before_apply_variants
    (contacts : List Contact) (i : Nat) (ok : Bool) :
    (Manager.handleDncToggle contacts i false).1 = contacts
    ∧ (Manager.handleDncToggle contacts i true).1 = flipDnc contacts i
    ∧ (Manager.handleDncToggle contacts i ok).2.head? = some (Eff.putDnc i)
    ∧ (App.handleDncToggle contacts i false).1 = flipDnc contacts i
    ∧ (App.handleDncToggle contacts i ok).2.head? = some (Eff.tableFlip i) := by
  refine ⟨rfl, rfl, ?_, rfl, ?_⟩ <;> cases ok <;> rfl

/-- C2 (counterexample): applying `contact_deleted` for an id absent
from the table does not leave the total counter unchanged.  With an
empty table and `total = 5`, deleting id 1 leaves the records
unchanged but moves the counter to 4 in both implementations. -/
theorem contact_deleted_absent_id_decrements_total :
    Manager.applyContactDeleted [] 5 1 = ([], 4)
    ∧ App.applyContactDeleted [] 5 1 = ([], 4)
    ∧ (4 : Int) ≠ 5 := by
  decide

/-- C2 (amended): whether or not the id is present, applying
`contact_deleted` decrements the total counter unconditionally by one
— floored at 0 in the `CampaignManager.jsx` variant, unfloored in the
`part_001` variant — rather than leaving it unchanged when the id is
absent; the record set afterwards consists of exactly the previous
records whose id differs from the deleted one, so a present record is
removed and an absent id leaves the record set unchanged. -/
theorem contact_deleted_amended (contacts : List Contact) (total : Int) (i : Nat) :
    (Manager.applyContactDeleted contacts total i).2 = max 0 (total - 1)
    ∧ (App.applyContactDeleted contacts total i).2 = total - 1
    ∧ (∀ c, c ∈ (Manager.applyContactDeleted contacts total i).1
          ↔ (c ∈ contacts ∧ c.id ≠ i))
    ∧ (∀ c, c ∈ (App.applyContactDeleted contacts total i).1
          ↔ (c ∈ contacts ∧ c.id ≠ i))
    ∧ ((∀ c ∈ contacts, c.id ≠ i) →
        (Manager.applyContactDeleted contacts total i).1 = contacts
        ∧ (App.applyContactDeleted contacts total i).1 = contacts) := by
  refine ⟨rfl, rfl, ?_, ?_, ?_⟩
  · intro c
    simp [Manager.applyContactDeleted, List.mem_filter]
  · intro c
    simp [App.applyContactDeleted, List.mem_filter]
  · intro habs
    have hf : contacts.filter (fun c => decide (c.id ≠ i)) = contacts := by
      rw [List.filter_eq_self]
      intro a ha
      simpa using habs a ha
    exact ⟨hf, hf⟩

/-- C2 (witness): the amended statement evaluated on a concrete table
lacking the deleted id, with the absent-id hypothesis of the last
conjunct discharged. -/
theorem contact_deleted_amended_witness :
    (∀ c ∈ [Contact.mk 2 false "b"], c.id ≠ 1)
    ∧ ((Manager.applyContactDeleted [Contact.mk 2 false "b"] 5 1).2 = max 0 ((5 : Int) - 1)
       ∧ (App.applyContactDeleted [Contact.mk 2 false "b"] 5 1).2 = (5 : Int) - 1
       ∧ (∀ c, c ∈ (Manager.applyContactDeleted [Contact.mk 2 false "b"] 5 1).1
             ↔ (c ∈ [Contact.mk 2 false "b"] ∧ c.id ≠ 1))
       ∧ (∀ c, c ∈ (App.applyContactDeleted [Contact.mk 2 false "b"] 5 1).1
             ↔ (c ∈ [Contact.mk 2 false "b"] ∧ c.id ≠ 1))
       ∧ (Manager.applyContactDeleted [Contact.mk 2 false "b"] 5 1).1
           = [Contact.mk 2 false "b"]
       ∧ (App.applyContactDeleted [Contact.mk 2 false "b"] 5 1).1
           = [Contact.mk 2 false "b"]) :=
  ⟨by decide, by
    obtain ⟨h1, h2, h3, h4, h5⟩ := contact_deleted_amended [Contact.mk 2 false "b"] 5 1
    obtain ⟨h6, h7⟩ := h5 (by decide)
    exact ⟨h1, h2, h3, h4, h6, h7⟩⟩

/-- C3: the total counter can go negative in the `part_001`
implementation.  From `total = 0`, a single `contact_deleted` event
drives the counter to `-1` (the handler computes `t - 1` with no
floor), contradicting the invariant `total ≥ 0`; the
`CampaignManager.jsx` variant of the same handler floors at 0 on the
same input. -/
theorem total_counter_goes_negative_part001 :
    App.applyContactDeleted [] 0 1 = ([], -1)
    ∧ (-1 : Int) < 0
    ∧ Manager.applyContactDeleted [] 0 1 = ([], 0) := by
  decide

/-- C4 (counterexample): submitting a second do-not-contact intent for
id 1 while one is already in flight is not rejected in either
implementation: the synchronous parts of the two overlapping
`handleDncToggle` invocations issue two PUT requests for the same id,
and no busy rejection occurs anywhere in either trace. -/
theorem dnc_second_submit_not_rejected :
    (Manager.overlappingDncSubmits 1).count (Eff.putDnc 1) = 2
    ∧ Eff.busyReject ∉ Manager.overlappingDncSubmits 1
    ∧ (App.overlappingDncSubmits 1).count (Eff.putDnc 1) = 2
    ∧ Eff.busyReject ∉ App.overlappingDncSubmits 1 := by
  decide

/-- C4 (amended): neither implementation has a per-id in-flight guard
for the do-not-contact mutation: every `handleDncToggle` invocation of
either variant immediately issues a remote PUT without consulting any
pending state, so a second submit for the same id while one is in
flight issues a second PUT, and no busy (MutationConflict)
classification is ever produced by either variant. -/
theorem dnc_submit_no_inflight_guard (i : Nat) (contacts : List Contact) (ok : Bool) :
    Manager.overlappingDncSubmits i = [Eff.putDnc i, Eff.putDnc i]
    ∧ Eff.busyReject ∉ Manager.overlappingDncSubmits i
    ∧ App.overlappingDncSubmits i
        = [Eff.tableFlip i, Eff.putDnc i, Eff.tableFlip i, Eff.putDnc i]
    ∧ Eff.busyReject ∉ App.overlappingDncSubmits i
    ∧ Eff.putDnc i ∈ (Manager.handleDncToggle contacts i ok).2
    ∧ Eff.busyReject ∉ (Manager.handleDncToggle contacts i ok).2
    ∧ Eff.putDnc i ∈ (App.handleDncToggle contacts i ok).2
    ∧ Eff.busyReject ∉ (App.handleDncToggle contacts i ok).2 := by
  refine ⟨rfl, ?_, rfl, ?_, ?_, ?_, ?_, ?_⟩ <;> cases ok <;>
    simp [Manager.overlappingDncSubmits, Manager.dncSubmitImmediateEffects,
      App.overlappingDncSubmits, App.dncSubmitImmediateEffects,
      Manager.handleDncToggle, App.handleDncToggle]

/-- C5: batch window planner coverage.  For any `start ≤ end` and any
`windowDays` in `[1, 30]` the chunk list of `computeChunks` is an
inclusive, ascending, gapless, non-overlapping exact cover of
`[start, end]` (`isChunkCover`), every chunk spans at most
`windowDays` days, a degenerate `start = end` range yields exactly one
chunk, `start > end` yields the empty list rather than an error, and
the inline 7-day loop of `handlePullApi` in `part_001` agrees with the
planner at `windowDays = 7`. -/
theorem computeChunks_cover (s e days : Int) (h1 : 1 ≤ days) (h30 : days ≤ 30) :
    isChunkCover s e (computeChunks s e days) = true
    ∧ (∀ c ∈ computeChunks s e days, c.2 + 1 - c.1 ≤ days)
    ∧ (∀ x : Int, (s ≤ x ∧ x ≤ e) ↔ ∃ c ∈ computeChunks s e days, c.1 ≤ x ∧ x ≤ c.2)
    ∧ (s = e → computeChunks s e days = [(s, s)])
    ∧ (e < s → computeChunks s e days = [])
    ∧ App.pullDateChunks s e = computeChunks s e 7 := by
  have hcov := isChunkCover_computeChunks days h1 (e + 1 - s).toNat s e rfl
  refine ⟨hcov, computeChunks_width days h1 (e + 1 - s).toNat s e rfl,
    isChunkCover_mem_iff (computeChunks s e days) s e hcov, ?_, ?_, ?_⟩
  · intro hse
    subst hse
    rw [computeChunks_eq s s days h1, if_pos le_rfl,
      computeChunks_eq (s + days) s days h1, if_neg (by omega)]
    have hmin : min (s + (days - 1)) s = s := min_eq_right (by omega)
    rw [hmin]
  · intro hes
    rw [computeChunks_eq s e days h1, if_neg (by omega)]
  · unfold App.pullDateChunks computeChunks
    exact pullChunksGo_eq_chunksGo (e + 1 - s).toNat s e

/-- C5 (witness): the coverage theorem evaluated at the concrete range
`[0, 9]` with a 4-day window. -/
theorem computeChunks_cover_witness :
    ((1 : Int) ≤ 4 ∧ (4 : Int) ≤ 30)
    ∧ (isChunkCover 0 9 (computeChunks 0 9 4) = true
       ∧ (∀ c ∈ computeChunks 0 9 4, c.2 + 1 - c.1 ≤ 4)
       ∧ (∀ x : Int, ((0 : Int) ≤ x ∧ x ≤ 9) ↔
            ∃ c ∈ computeChunks 0 9 4, c.1 ≤ x ∧ x ≤ c.2)
       ∧ ((0 : Int) = 9 → computeChunks 0 9 4 = [(0, 0)])
       ∧ ((9 : Int) < 0 → computeChunks 0 9 4 = [])
       ∧ App.pullDateChunks 0 9 = computeChunks 0 9 7) :=
  ⟨⟨by decide, by decide⟩, computeChunks_cover 0 9 4 (by decide) (by decide)⟩

/-- C6: batch planning determinism on the example of the
specification: planning from 2024-01-01 to 2024-01-20 with a 7-day
window yields exactly the chunks 2024-01-01..2024-01-07,
2024-01-08..2024-01-14 and 2024-01-15..2024-01-20, the last chunk
clipped at the end date. -/
theorem computeChunks_example_jan2024 :
    (computeChunks (daysFromCivil 2024 1 1) (daysFromCivil 2024 1 20) 7).map
        (fun c => (civilFromDays c.1, civilFromDays c.2))
      = [((2024, 1, 1), (2024, 1, 7)), ((2024, 1, 8), (2024, 1, 14)),
         ((2024, 1, 15), (2024, 1, 20))] := by
  decide

/-- C7: response cache TTL behaviour.  A GET is answered from the
cache (same stored payload, cache untouched, no network call) exactly
when an entry for the URL exists with `now - storedAt < 60000` ms; a
GET at or past the TTL performs the network call and overwrites the
entry with the fresh payload and timestamp; a non-GET request never
consults and never populates the cache. -/
theorem cache_ttl_get_behaviour {α : Type} (cache : List (String × CacheEntry α))
    (url : String) (now : Int) (net : α) :
    ((performRequest cache "get" url now net).networkCalled = false
       ↔ ∃ en, cacheLookup cache url = some en ∧ now - en.timestamp < 60000)
    ∧ (∀ en, cacheLookup cache url = some en → now - en.timestamp < 60000 →
        performRequest cache "get" url now net = ⟨en.data, cache, false⟩)
    ∧ (∀ en, cacheLookup cache url = some en → 60000 ≤ now - en.timestamp →
        performRequest cache "get" url now net = ⟨net, cacheSet cache url ⟨net, now⟩, true⟩)
    ∧ cacheLookup (cacheSet cache url ⟨net, now⟩) url = some ⟨net, now⟩
    ∧ (∀ method, method ≠ "get" →
        performRequest cache method url now net = ⟨net, cache, true⟩) := by
  refine ⟨?_, ?_, ?_, ?_, ?_⟩
  · rcases h : cacheLookup cache url with _ | en
    · simp [performRequest, h]
    · by_cases ht : now - en.timestamp < 60000
      · simp [performRequest, h, ht]
      · simp [performRequest, h, ht]
  · intro en hen ht
    simp [performRequest, hen, ht]
  · intro en hen ht
    simp [performRequest, hen, not_lt.mpr ht]
  · simp [cacheLookup, cacheSet]
  · intro method hm
    simp [performRequest, hm]

/-- C7 (witness): a cache holding payload 7 for URL `u` stored at time
0 serves a read 10 seconds later from the cache with no network call,
performs a fresh network call 65 seconds later overwriting the entry,
and a non-GET request passes the cache by untouched. -/
theorem cache_ttl_get_behaviour_witness :
    performRequest [("u", CacheEntry.mk (7 : Int) 0)] "get" "u" 10000 42
        = ⟨7, [("u", CacheEntry.mk (7 : Int) 0)], false⟩
    ∧ performRequest [("u", CacheEntry.mk (7 : Int) 0)] "get" "u" 65000 42
        = ⟨42, cacheSet [("u", CacheEntry.mk (7 : Int) 0)] "u" ⟨42, 65000⟩, true⟩
    ∧ performRequest [("u", CacheEntry.mk (7 : Int) 0)] "post" "u" 10000 42
        = ⟨42, [("u", CacheEntry.mk (7 : Int) 0)], true⟩ :=
  ⟨(cache_ttl_get_behaviour [("u", CacheEntry.mk (7 : Int) 0)] "u" 10000 42).2.1
      ⟨7, 0⟩ (by decide) (by decide),
   (cache_ttl_get_behaviour [("u", CacheEntry.mk (7 : Int) 0)] "u" 65000 42).2.2.1
      ⟨7, 0⟩ (by decide) (by decide),
   (cache_ttl_get_behaviour [("u", CacheEntry.mk (7 : Int) 0)] "u" 10000 42).2.2.2.2
      "post" (by decide)⟩

/-!  Helper lemmas for the reconnect supervisor. -/

/-- Once the retry counter has reached `maxRetries`, no close event
ever schedules another reconnect timer. -/
theorem reconnectDelays_maxed (k : Nat) : reconnectDelays k 5 = [] := by
  cases k with
  | zero => rfl
  | succ k => simp [reconnectDelays, onCloseStep, maxRetries]

/-- Below `maxRetries`, a close event schedules a `500 * (retry + 1)`
ms timer and the counter advances. -/
theorem reconnectDelays_succ (k retry : Nat) (h : retry < 5) :
    reconnectDelays (k + 1) retry
      = (500 * (retry + 1)) :: reconnectDelays k (retry + 1) := by
  simp [reconnectDelays, onCloseStep, maxRetries, h]

/-- The delay sequence `500 * 1, 500 * 2, ...` is strictly
increasing. -/
theorem chain_lt_delays (n : Nat) :
    List.Chain' (fun a b => a < b) ((List.range n).map (fun i => 500 * (i + 1))) := by
  rw [List.chain'_map]
  cases n with
  | zero => simp
  | succ n =>
    rw [List.chain'_range_succ]
    intro m hm
    omega

/-- C8: reconnect backoff.  Over any run of `k` consecutive close
events starting from a fresh counter, the scheduled reconnect delays
are exactly `500 * n` ms for attempts `n = 1, 2, ...` up to the 5th,
strictly increasing; every close below the 5th schedules the
`500 * (n + 1)` ms timer, and from the 5th failure on the handler
performs the snapshot-fetch fallback and never schedules another
timer. -/
theorem reconnect_backoff_delays (k : Nat) :
    reconnectDelays k 0 = (List.range (min k 5)).map (fun i => 500 * (i + 1))
    ∧ List.Chain' (fun a b => a < b) (reconnectDelays k 0)
    ∧ (∀ n : Nat, n < 5 →
        onCloseStep n = CloseAction.scheduleReconnect (n + 1) (500 * (n + 1)))
    ∧ (∀ r : Nat, 5 ≤ r → onCloseStep r = CloseAction.fallbackFetch) := by
  have hsched : ∀ n : Nat, n < 5 →
      onCloseStep n = CloseAction.scheduleReconnect (n + 1) (500 * (n + 1)) := by
    intro n hn
    simp [onCloseStep, maxRetries, hn]
  have hfall : ∀ r : Nat, 5 ≤ r → onCloseStep r = CloseAction.fallbackFetch := by
    intro r hr
    simp [onCloseStep, maxRetries, Nat.not_lt.mpr hr]
  have hmain : reconnectDelays k 0 = (List.range (min k 5)).map (fun i => 500 * (i + 1)) := by
    rcases Nat.lt_or_ge k 5 with hk | hk
    · interval_cases k <;> decide
    · obtain ⟨m, rfl⟩ : ∃ m, k = m + 5 := ⟨k - 5, by omega⟩
      have e5 : reconnectDelays (m + 5) 0 = 500 :: reconnectDelays (m + 4) 1 :=
        reconnectDelays_succ (m + 4) 0 (by norm_num)
      have e4 : reconnectDelays (m + 4) 1 = 1000 :: reconnectDelays (m + 3) 2 :=
        reconnectDelays_succ (m + 3) 1 (by norm_num)
      have e3 : reconnectDelays (m + 3) 2 = 1500 :: reconnectDelays (m + 2) 3 :=
        reconnectDelays_succ (m + 2) 2 (by norm_num)
      have e2 : reconnectDelays (m + 2) 3 = 2000 :: reconnectDelays (m + 1) 4 :=
        reconnectDelays_succ (m + 1) 3 (by norm_num)
      have e1 : reconnectDelays (m + 1) 4 = 2500 :: reconnectDelays m 5 :=
        reconnectDelays_succ m 4 (by norm_num)
      rw [e5, e4, e3, e2, e1, reconnectDelays_maxed]
      rw [show min (m + 5) 5 = 5 by omega]
      decide
  refine ⟨hmain, ?_, hsched, hfall⟩
  rw [hmain]
  exact chain_lt_delays (min k 5)

/-- C8 (witness): a run of 9 consecutive close events schedules
exactly the five delays 500, 1000, 1500, 2000 and 2500 ms; the third
close schedules the 1500 ms timer; the sixth close (counter at 5)
falls back to a direct snapshot fetch. -/
theorem reconnect_backoff_delays_witness :
    reconnectDelays 9 0 = [500, 1000, 1500, 2000, 2500]
    ∧ onCloseStep 2 = CloseAction.scheduleReconnect 3 1500
    ∧ onCloseStep 5 = CloseAction.fallbackFetch := by
  obtain ⟨h1, _, h3, h4⟩ := reconnect_backoff_delays 9
  refine ⟨?_, ?_, h4 5 (by decide)⟩
  · rw [h1]
    decide
  · have := h3 2 (by decide)
    simpa using this

/-- C9: a failed snapshot fetch preserves last-known-good data.  For
every component state and error message, the failing `fetchContacts`
resolution leaves the contact records and the total counter exactly as
they were, surfacing only the classified error message and flags. -/
theorem fetchContacts_failure_preserves_table
    (st : Manager.ManagerState) (msg : String) :
    (Manager.fetchContacts st (Except.error msg)).contacts = st.contacts
    ∧ (Manager.fetchContacts st (Except.error msg)).totalContacts = st.totalContacts
    ∧ (Manager.fetchContacts st (Except.error msg)).isError = true
    ∧ (Manager.fetchContacts st (Except.error msg)).loading = false
    ∧ (Manager.fetchContacts st (Except.error msg)).message
        = "Failed to fetch contacts: " ++ msg :=
  ⟨rfl, rfl, rfl, rfl, rfl⟩

/-- C10: every UI entry point into the chunk planner clamps the
days-per-chunk argument into `[1, 30]`: the three actions take
`Number(chunkDays) || 7` and the input field `Number(value) || 1`,
both clamped with `max(1, min(30, _))`, and each action invokes
`computeChunks` with exactly that clamped value, so the planner is
never called with a window outside `[1, 30]`. -/
theorem chunk_days_clamped (v : Option Int) (s e : Int) :
    1 ≤ Part003.clampDaysAction v ∧ Part003.clampDaysAction v ≤ 30
    ∧ 1 ≤ Part003.clampDaysField v ∧ Part003.clampDaysField v ≤ 30
    ∧ Part003.clampDaysAction none = 7 ∧ Part003.clampDaysAction (some 0) = 7
    ∧ Part003.clampDaysField none = 1 ∧ Part003.clampDaysField (some 0) = 1
    ∧ Part003.handlePullApiChunks s e v = computeChunks s e (Part003.clampDaysAction v)
    ∧ Part003.previewChunksRows s e v = computeChunks s e (Part003.clampDaysAction v)
    ∧ Part003.exportChunksRows s e v = computeChunks s e (Part003.clampDaysAction v) := by
  refine ⟨le_max_left 1 _, max_le (by norm_num) (min_le_left 30 _),
    le_max_left 1 _, max_le (by norm_num) (min_le_left 30 _),
    rfl, rfl, rfl, rfl, rfl, rfl, rfl⟩
